import Mathlib

/-!
Verification of the motion-triggered segmented capture pipeline of the
livecam repository (reference/detection_cam0.py and reference/cctv_main.py).

The Python source is shallowly embedded: pure control flow and integer /
rational arithmetic are translated directly; calls into external
collaborators (OpenCV image kernels, subprocess capture and transcode
utilities, the filesystem) are modelled as explicit parameters or as small
concrete models (an association-list filesystem, an outcome type for the
duration probe), exactly at the granularity the source consumes them.
Time values (Python `time.time()` floats) are modelled as rationals.
-/

namespace LiveCam

/-! ### Sensitivity table (detection_cam0.py lines 63-89)

`SENSITIVITY_LEVELS`: the five fixed profiles, in increasing sensitivity
order very_low, low, medium, high, very_high. -/

structure SensitivityProfile where
  threshold : Nat
  cooldown : Nat
deriving DecidableEq, Repr

def sensVeryLow : SensitivityProfile := ⟨15000, 15⟩

def sensLow : SensitivityProfile := ⟨10000, 12⟩

def sensMedium : SensitivityProfile := ⟨6000, 8⟩

def sensHigh : SensitivityProfile := ⟨3000, 5⟩

def sensVeryHigh : SensitivityProfile := ⟨1000, 3⟩

def SENSITIVITY_LEVELS : List SensitivityProfile :=
  [sensVeryLow, sensLow, sensMedium, sensHigh, sensVeryHigh]

/-! ### Global capture constants (detection_cam0.py lines 99-112) -/

def FRAMERATE : Nat := 30

def SKIP_FRAME : Nat := 3

/-- `actual_buffer_fps = FRAMERATE // SKIP_FRAME` (line 587). -/
def actualBufferFps : Nat := FRAMERATE / SKIP_FRAME

/-- Ring-buffer capacity `pre_buffer * actual_buffer_fps`
(`deque(maxlen=pre_buffer * self.actual_buffer_fps)`, line 588). -/
def bufferCapacity (preBuffer : Nat) : Nat := preBuffer * actualBufferFps

/-! ### Bounded deque (`collections.deque` with `maxlen`)

`append` on a full deque evicts the oldest element; equivalently, append
then truncate from the left down to `maxlen`. -/

def dequePush (maxlen : Nat) (buf : List α) (x : α) : List α :=
  (buf ++ [x]).drop (buf.length + 1 - maxlen)

def dequePushAll (maxlen : Nat) (buf : List α) (xs : List α) : List α :=
  xs.foldl (dequePush maxlen) buf

/-! ### SimpleMotionDetector (detection_cam0.py lines 338-417)

The OpenCV image kernels the detector calls are external library code; they
are abstracted as an `ImgOps` record: `toGrayBlur` is
`cvtColor` + `GaussianBlur` (lines 367-368), `medianOf` is the per-pixel
`np.median` over the warm-up samples (line 374), `changedPixels` is
`countNonZero(threshold(absdiff(bg, gray), 25))` (lines 384-388), `blendBg`
is `addWeighted(bg, 0.95, gray, 0.05, 0)` (line 403).  Every theorem below
quantifies over all such records, so nothing depends on a particular choice
of image semantics. -/

structure ImgOps (Frame Gray : Type) where
  toGrayBlur : Frame → Gray
  medianOf : List Gray → Gray
  changedPixels : Gray → Gray → Nat
  blendBg : Gray → Gray → Gray

structure SimpleState (Gray : Type) where
  threshold : Nat
  cooldown : ℚ
  lastDetectionTime : ℚ
  backgroundFrame : Option Gray
  backgroundFrames : List Gray
  backgroundReady : Bool
  frameCount : Nat

/-- `SimpleMotionDetector.__init__` (lines 341-349). -/
def simpleInit (Gray : Type) (threshold : Nat) (cooldown : ℚ) : SimpleState Gray :=
  { threshold := threshold, cooldown := cooldown, lastDetectionTime := 0,
    backgroundFrame := none, backgroundFrames := [], backgroundReady := false,
    frameCount := 0 }

/-- `SimpleMotionDetector.detect` (lines 357-405).  The
`backgroundFrame = none` case under `backgroundReady = true` is unreachable
from `simpleInit` (the source would raise inside `cv2.absdiff` there); it is
mapped to a no-motion result. -/
def simpleDetect (ops : ImgOps Frame Gray) (s : SimpleState Gray) (frame : Frame)
    (now : ℚ) : Bool × SimpleState Gray :=
  let s1 := { s with frameCount := s.frameCount + 1 }
  if now - s1.lastDetectionTime < s1.cooldown then (false, s1)
  else
    let gray := ops.toGrayBlur frame
    if s1.backgroundFrames.length < 60 then
      let bgs := s1.backgroundFrames ++ [gray]
      if bgs.length = 60 then
        (false, { s1 with backgroundFrames := bgs,
                          backgroundFrame := some (ops.medianOf bgs),
                          backgroundReady := true })
      else
        (false, { s1 with backgroundFrames := bgs })
    else if s1.backgroundReady = false then (false, s1)
    else
      match s1.backgroundFrame with
      | none => (false, s1)
      | some bg =>
        if s1.threshold < ops.changedPixels bg gray then
          (true, { s1 with lastDetectionTime := now })
        else if s1.frameCount % 10 = 0 then
          (false, { s1 with backgroundFrame := some (ops.blendBg bg gray) })
        else
          (false, s1)

/-- Run a sequence of `detect` calls, returning each call's result paired
with the state after it. -/
def simpleTrace (ops : ImgOps Frame Gray) :
    SimpleState Gray → List (Frame × ℚ) → List (Bool × SimpleState Gray)
  | _, [] => []
  | s, c :: cs =>
    let r := simpleDetect ops s c.1 c.2
    r :: simpleTrace ops r.2 cs

def simpleRun (ops : ImgOps Frame Gray) (s : SimpleState Gray)
    (calls : List (Frame × ℚ)) : SimpleState Gray :=
  calls.foldl (fun st c => (simpleDetect ops st c.1 c.2).2) s

/-! ### HandWaveDetector (detection_cam0.py lines 419-558)

The contour pipeline (morphology, `findContours`, `contourArea`,
`arcLength`, moments, and the float-π compactness filter of lines 466-496)
is OpenCV/NumPy work on decoded pixels; it is abstracted as
`handCandidates : Gray → Gray → List HandCandidate`, returning the filtered
hand candidates with their centroid and area.  The repository's own pure
logic downstream of it — largest-candidate selection, position tracking and
`_analyze_wave_pattern` — is embedded concretely. -/

structure HandCandidate where
  cx : Int
  cy : Int
  area : ℚ
deriving DecidableEq, Repr

structure HandOps (Frame Gray : Type) where
  toGrayBlur : Frame → Gray
  medianOf : List Gray → Gray
  handCandidates : Gray → Gray → List HandCandidate
  blendBg : Gray → Gray → Gray

structure HandState (Gray : Type) where
  cooldown : ℚ
  lastDetectionTime : ℚ
  backgroundFrame : Option Gray
  backgroundFrames : List Gray
  backgroundReady : Bool
  handPositions : List (Int × Int)
  frameCount : Nat

/-- `HandWaveDetector.__init__` (lines 422-438). -/
def handInit (Gray : Type) (cooldown : ℚ) : HandState Gray :=
  { cooldown := cooldown, lastDetectionTime := 0, backgroundFrame := none,
    backgroundFrames := [], backgroundReady := false, handPositions := [],
    frameCount := 0 }

/-- `max(hand_candidates, key=lambda x: x['area'])` (line 500): first
candidate of maximal area (Python `max` keeps the earliest among ties). -/
def largestHand : List HandCandidate → Option HandCandidate
  | [] => none
  | c :: cs => some (cs.foldl (fun best x => if best.area < x.area then x else best) c)

/-- Count of interior local extrema of the x-coordinate sequence
(lines 534-538). -/
def directionChanges : List Int → Nat
  | a :: b :: c :: rest =>
    (if (a < b ∧ c < b) ∨ (b < a ∧ b < c) then 1 else 0) + directionChanges (b :: c :: rest)
  | _ => 0

/-- `HandWaveDetector._analyze_wave_pattern` (lines 522-545);
`WAVE_PATTERN_FRAMES = 4`, `MOVEMENT_THRESHOLD = 15`. -/
def analyzeWavePattern (positions : List (Int × Int)) : Bool :=
  if positions.length < 4 then false
  else
    let xs := positions.map Prod.fst
    let xmin := xs.foldl min (xs.headD 0)
    let xmax := xs.foldl max (xs.headD 0)
    if xmax - xmin < 15 then false
    else if 1 ≤ directionChanges xs then true
    else false

/-- `HandWaveDetector.detect` (lines 440-520).  Warm-up length is 30
(`deque(maxlen=30)`, line 427); the slow background update runs every 20th
frame (line 517).  As for `simpleDetect`, the `none` background under
`backgroundReady = true` is unreachable from `handInit`. -/
def handDetect (ops : HandOps Frame Gray) (s : HandState Gray) (frame : Frame)
    (now : ℚ) : Bool × HandState Gray :=
  let s1 := { s with frameCount := s.frameCount + 1 }
  if now - s1.lastDetectionTime < s1.cooldown then (false, s1)
  else
    let gray := ops.toGrayBlur frame
    if s1.backgroundFrames.length < 30 then
      let bgs := s1.backgroundFrames ++ [gray]
      if bgs.length = 30 then
        (false, { s1 with backgroundFrames := bgs,
                          backgroundFrame := some (ops.medianOf bgs),
                          backgroundReady := true })
      else
        (false, { s1 with backgroundFrames := bgs })
    else if s1.backgroundReady = false then (false, s1)
    else
      match s1.backgroundFrame with
      | none => (false, s1)
      | some bg =>
        match largestHand (ops.handCandidates bg gray) with
        | some lh =>
          let hp0 := s1.handPositions ++ [(lh.cx, lh.cy)]
          let hp := if 4 < hp0.length then hp0.drop 1 else hp0
          if 4 ≤ hp.length ∧ analyzeWavePattern hp = true then
            (true, { s1 with lastDetectionTime := now, handPositions := [] })
          else if s1.frameCount % 20 = 0 then
            (false, { s1 with handPositions := hp,
                              backgroundFrame := some (ops.blendBg bg gray) })
          else
            (false, { s1 with handPositions := hp })
        | none =>
          let hp := if 0 < s1.handPositions.length then s1.handPositions.drop 1
                    else s1.handPositions
          if s1.frameCount % 20 = 0 then
            (false, { s1 with handPositions := hp,
                              backgroundFrame := some (ops.blendBg bg gray) })
          else
            (false, { s1 with handPositions := hp })

def handTrace (ops : HandOps Frame Gray) :
    HandState Gray → List (Frame × ℚ) → List (Bool × HandState Gray)
  | _, [] => []
  | s, c :: cs =>
    let r := handDetect ops s c.1 c.2
    r :: handTrace ops r.2 cs

def handRun (ops : HandOps Frame Gray) (s : HandState Gray)
    (calls : List (Frame × ℚ)) : HandState Gray :=
  calls.foldl (fun st c => (handDetect ops st c.1 c.2).2) s

/-! ### A small filesystem model

File contents are tracked at the granularity the recorder observes them:
the list of source clips concatenated into the file, and a byte size.  The
filesystem is an association list from paths to file data. -/

abbrev Path := String

structure FileData where
  clips : List String
  size : Nat
deriving DecidableEq, Repr

abbrev FS := List (Path × FileData)

def fsRead (fs : FS) (p : Path) : Option FileData :=
  (fs.find? (fun e => e.1 == p)).map Prod.snd

def fsExists (fs : FS) (p : Path) : Bool :=
  (fsRead fs p).isSome

def fsDelete (fs : FS) (p : Path) : FS :=
  fs.filter (fun e => e.1 != p)

def fsWrite (fs : FS) (p : Path) (d : FileData) : FS :=
  (p, d) :: fsDelete fs p

/-- `shutil.move(src, dst)`. -/
def fsMove (fs : FS) (src dst : Path) : FS :=
  match fsRead fs src with
  | none => fs
  | some d => fsWrite (fsDelete fs src) dst d

/-! ### VideoRecorder: session start and background merge
(detection_cam0.py lines 564-931)

External subprocesses (rpicam-vid post capture, ffmpeg concat, ffprobe) are
modelled by their observable outcomes: whether the post-capture produced the
temp file, and whether the ffmpeg concat run exited 0.  On a non-zero exit
or timeout the merge output is not produced (`_merge_video_files` returns
False and writes nothing usable at the output path). -/

structure RecorderState where
  isRecording : Bool
  currentRecordingPath : Option Path
  currentTempFiles : List Path
  frameBuffer : List (List Nat)
deriving DecidableEq, Repr

/-- Externally determined data for one `start_recording` call: the
timestamped paths it builds, and whether `save_buffer_to_file`'s writer
succeeded. -/
structure RecEnv where
  outputPath : Path
  tempPostPath : Path
  bufferSavePath : Path
  bufferSaveOk : Bool

/-- `VideoRecorder.start_recording` up to the point it returns
(lines 740-844): refuse while a session is active (lines 742-743, returning
`None` and touching nothing); otherwise mark the session active, save the
pre-roll buffer to its clip file, register the temp post file, spawn the
post capture and merge worker, and return the output path.  The returned
triple is (returned path, recorder state, filesystem). -/
def startRecording (env : RecEnv) (s : RecorderState) (fs : FS) :
    Option Path × RecorderState × FS :=
  if s.isRecording then (none, s, fs)
  else
    let bufferFile : Option Path :=
      if s.frameBuffer.length = 0 then none
      else if env.bufferSaveOk then some env.bufferSavePath
      else none
    let fs1 :=
      match bufferFile with
      | some b => fsWrite fs b { clips := ["pre"], size := 3000 }
      | none => fs
    let s1 := { s with isRecording := true,
                       currentRecordingPath := some env.outputPath,
                       currentTempFiles := s.currentTempFiles ++ [env.tempPostPath] }
    (some env.outputPath, s1, fs1)

/-- `VideoRecorder._merge_video_files` (lines 846-931): writes and removes
the concat list and intermediate h264 extractions (net no filesystem
change), then runs the ffmpeg concat.  Exit 0 writes the merged output
(concatenation of the inputs' clips) and returns true; a non-zero exit or a
timeout returns false with no merged output. -/
def mergeVideoFiles (mergeOk : Bool) (inputs : List Path) (outputFile : Path)
    (fs : FS) : Bool × FS :=
  if mergeOk then
    let clips := inputs.flatMap (fun p => ((fsRead fs p).map FileData.clips).getD [])
    let total := inputs.foldl (fun a p => a + ((fsRead fs p).map FileData.size).getD 0) 0
    (true, fsWrite fs outputFile { clips := clips, size := total })
  else
    (false, fs)

/-- The `merge_worker` closure of `start_recording` (lines 796-833):
wait for the post capture; if the temp post file exists, merge pre-roll
(when present) with it — the boolean result of `_merge_video_files` is
ignored — or, with no pre-roll, move the post clip to the output path;
then unconditionally delete the temp post file and the pre-roll clip, and
finally clear the session flags. -/
def mergeWorker (mergeOk : Bool) (bufferFile : Option Path)
    (tempPostFile outputPath : Path) (s : RecorderState) (fs : FS) :
    RecorderState × FS :=
  let fs1 :=
    if fsExists fs tempPostFile then
      let preList : List Path :=
        match bufferFile with
        | some b => if fsExists fs b then [b] else []
        | none => []
      let filesToMerge := preList ++ [tempPostFile]
      let fsA :=
        if 1 < filesToMerge.length then
          (mergeVideoFiles mergeOk filesToMerge outputPath fs).2
        else
          fsMove fs tempPostFile outputPath
      let fsB := if fsExists fsA tempPostFile then fsDelete fsA tempPostFile else fsA
      match bufferFile with
      | some b => if fsExists fsB b then fsDelete fsB b else fsB
      | none => fsB
    else fs
  ({ s with isRecording := false, currentRecordingPath := none,
            currentTempFiles := [] }, fs1)

/-! ### VideoRecorder.check_and_cleanup_recording
(detection_cam0.py lines 978-1042)

The ffprobe integrity probe is external; its outcome per path is one of:
exit 0 with a duration, non-zero exit, `TimeoutExpired`, ffprobe binary
missing (`FileNotFoundError`), or another exception. -/

inductive ProbeOutcome
  | exitZero (duration : ℚ)
  | exitNonzero
  | timedOut
  | toolMissing
  | failedOther
deriving DecidableEq, Repr

structure CheckState where
  currentRecordingPath : Option Path
  fs : FS
deriving DecidableEq, Repr

def checkAndCleanupRecording (probe : Path → ProbeOutcome) (st : CheckState) :
    Bool × CheckState :=
  match st.currentRecordingPath with
  | none => (true, st)
  | some p =>
    match fsRead st.fs p with
    | none => (false, { st with currentRecordingPath := none })
    | some fd =>
      if fd.size < 1024 then
        (false, { currentRecordingPath := none, fs := fsDelete st.fs p })
      else
        match probe p with
        | .exitNonzero => (false, { currentRecordingPath := none, fs := fsDelete st.fs p })
        | .exitZero _ => (true, { st with currentRecordingPath := none })
        | .timedOut => (false, { st with currentRecordingPath := none })
        | .toolMissing => (true, { st with currentRecordingPath := none })
        | .failedOther => (false, { st with currentRecordingPath := none })

/-! ### VideoRecorder.save_buffer_to_file (detection_cam0.py lines 615-675)

Stored buffer entries are JPEG byte strings (`cv2.imencode` output,
line 603), modelled as `List Nat`.  `cv2.imdecode` is an external decoder
parameter; `cv2.resize` only changes the recorded dimensions.  The
`cv2.VideoWriter` is modelled by the clip it ends up containing: the writer
is opened at 30 fps (line 626) and receives each decoded frame, resized to
the recording resolution, written 3 times (`frame_duplication = 3`,
lines 629-639).  `writeOk` stands for `buffer_file.exists()` after
`out.release()` with no exception raised (lines 643-675). -/

structure RawImg where
  width : Nat
  height : Nat
  pix : Nat
deriving DecidableEq, Repr

def resizeImg (width height : Nat) (img : RawImg) : RawImg :=
  { width := width, height := height, pix := img.pix }

structure SavedClip where
  fps : ℚ
  frames : List RawImg
deriving DecidableEq, Repr

/-- The frames one stored JPEG contributes to the written clip: three
copies of its decoded, resized image, or nothing if decoding fails
(the source skips frames `cv2.imdecode` returns `None` for, line 634). -/
def decodeBlock (decode : List Nat → Option RawImg) (width height : Nat)
    (j : List Nat) : List RawImg :=
  match decode j with
  | some f => List.replicate 3 (resizeImg width height f)
  | none => []

def writeBufferFrames (decode : List Nat → Option RawImg) (width height : Nat)
    (frameBuffer : List (List Nat)) : List RawImg :=
  frameBuffer.foldl
    (fun acc j =>
      match decode j with
      | some f => acc ++ List.replicate 3 (resizeImg width height f)
      | none => acc) []

def saveBufferToFile (decode : List Nat → Option RawImg) (writeOk : Bool)
    (width height : Nat) (frameBuffer : List (List Nat)) (bufferPath : Path) :
    Option (Path × SavedClip) :=
  if frameBuffer.length = 0 then none
  else
    let written := writeBufferFrames decode width height frameBuffer
    if writeOk then some (bufferPath, { fps := 30, frames := written }) else none

/-! ### CameraStreamManager byte buffer (detection_cam0.py lines 205-305)

`get_frame` reads a chunk from the capture process's stdout, appends it to
`self.buffer`, and runs `_extract_frame_from_mjpeg`, which scans for the
JPEG start/end markers `FF D8` / `FF D9` and either consumes one complete
frame or returns the buffer unchanged.  `cv2.imdecode` is a decoder
parameter. -/

def JPEG_START : List Nat := [255, 216]

def JPEG_END : List Nat := [255, 217]

/-- Index of the first occurrence of `pat` in `buf` (Python `bytes.find`),
offset by the running index `i`. -/
def findPatAux (pat : List Nat) : List Nat → Nat → Option Nat
  | [], i => if pat.length = 0 then some i else none
  | b :: rest, i =>
    if (b :: rest).take pat.length = pat then some i
    else findPatAux pat rest (i + 1)

/-- `CameraStreamManager._extract_frame_from_mjpeg` (lines 287-305).
`end_pos = buffer.find(end_marker, start_pos)` searches from the start
marker's own index. -/
def extractFrameFromMjpeg (decode : List Nat → Option RawImg)
    (buffer : List Nat) : Option RawImg × List Nat :=
  match findPatAux JPEG_START buffer 0 with
  | none => (none, buffer)
  | some s =>
    match (findPatAux JPEG_END (buffer.drop s) 0).map (· + s) with
    | none => (none, buffer)
    | some e =>
      if s < e then
        (decode ((buffer.drop s).take (e + 2 - s)), buffer.drop (e + 2))
      else
        (none, buffer)

/-- The buffer/extraction core of `CameraStreamManager.get_frame`
(lines 270-285): an empty chunk returns no frame and leaves the buffer
alone; otherwise the chunk is appended and one extraction pass runs. -/
def getFrameStep (decode : List Nat → Option RawImg)
    (buffer chunk : List Nat) : Option RawImg × List Nat :=
  if chunk.length = 0 then (none, buffer)
  else extractFrameFromMjpeg decode (buffer ++ chunk)

/-- Iterated `get_frame` calls fed by the given chunks; returns the
retained byte buffer. -/
def runStream (decode : List Nat → Option RawImg) :
    List Nat → List (List Nat) → List Nat
  | buffer, [] => buffer
  | buffer, c :: cs => runStream decode (getFrameStep decode buffer c).2 cs

/-! ### generate_mjpeg_stream buffer ceiling (cctv_main.py lines 208-291)

The streaming loop in cctv_main.py enforces the buffer ceiling: after
appending each chunk, if the buffer exceeds `buffer_limit` the oldest bytes
are deleted in place keeping the `buffer_keep`-byte tail (lines 270-272);
the frame-scan loop (lines 275-291) then extracts complete JPEG frames,
trimming further when no start marker is present and the buffer exceeds
`cleanup_threshold` (keeping `cleanup_keep` bytes).  For the 720p profile,
`buffer_limit = 1048576` and `buffer_keep = 524288` (lines 221-222).
The `while True` scan is embedded with explicit fuel; every iteration
strictly shrinks the buffer, so any fuel of at least the buffer length
reproduces the loop exactly, and the theorems below hold for every fuel. -/

def streamTrim (bufferLimit bufferKeep : Nat) (buffer : List Nat) : List Nat :=
  if bufferLimit < buffer.length then buffer.drop (buffer.length - bufferKeep)
  else buffer

/-- The frame-scan loop of `generate_mjpeg_stream` (lines 275-291).
`end_idx = buffer.find(end_marker, start_idx + 2)` here searches from two
bytes past the start marker.  Returns the frames yielded and the retained
buffer. -/
def frameScan (cleanupThreshold cleanupKeep frameMin frameMax : Nat) :
    Nat → List Nat → List (List Nat) → List (List Nat) × List Nat
  | 0, buffer, acc => (acc, buffer)
  | fuel + 1, buffer, acc =>
    match findPatAux JPEG_START buffer 0 with
    | none =>
      if cleanupThreshold < buffer.length then
        (acc, buffer.drop (buffer.length - cleanupKeep))
      else (acc, buffer)
    | some s =>
      match (findPatAux JPEG_END (buffer.drop (s + 2)) 0).map (· + (s + 2)) with
      | none =>
        if 0 < s then (acc, buffer.drop s) else (acc, buffer)
      | some e =>
        let fr := (buffer.drop s).take (e + 2 - s)
        let acc1 := if frameMin < fr.length ∧ fr.length < frameMax then acc ++ [fr] else acc
        frameScan cleanupThreshold cleanupKeep frameMin frameMax fuel
          (buffer.drop (e + 2)) acc1

/-- One read iteration of `generate_mjpeg_stream`'s loop (lines 257-291):
append the chunk, apply the ceiling trim, then scan out complete frames. -/
def streamIter (bufferLimit bufferKeep cleanupThreshold cleanupKeep frameMin frameMax
    fuel : Nat) (buffer chunk : List Nat) : List (List Nat) × List Nat :=
  frameScan cleanupThreshold cleanupKeep frameMin frameMax fuel
    (streamTrim bufferLimit bufferKeep (buffer ++ chunk)) []

/-! ### Monitoring loop / recording-flag interplay
(detection_cam0.py lines 762-837 and 1274-1276)

The events of the two cited code regions acting on the shared recorder
state: a monitoring-loop frame arrival (which pushes into the pre-event
ring buffer only when `is_recording` is false, lines 1274-1276), the
successful return of `start_recording` (which has set `is_recording = True`,
line 763), and the merge worker's `finally` block (the only place in this
subsystem that clears the flag, line 831). -/

structure LoopState where
  isRecording : Bool
  ringBuffer : List (List Nat)
deriving DecidableEq, Repr

inductive LoopEvent
  | frameArrived (f : List Nat)
  | recordingStarted
  | mergeWorkerDone
deriving DecidableEq, Repr

def loopStep (cap : Nat) (s : LoopState) : LoopEvent → LoopState
  | .frameArrived f =>
    if s.isRecording then s
    else { s with ringBuffer := dequePush cap s.ringBuffer f }
  | .recordingStarted =>
    if s.isRecording then s else { s with isRecording := true }
  | .mergeWorkerDone =>
    { s with isRecording := false, ringBuffer := s.ringBuffer }

def loopRun (cap : Nat) (s : LoopState) (evs : List LoopEvent) : LoopState :=
  evs.foldl (loopStep cap) s

/-! ### Concrete instances used to evaluate the statements -/

/-- A trivial image-operation record on unit frames. -/
def trivImgOps : ImgOps Unit Unit :=
  { toGrayBlur := fun _ => (), medianOf := fun _ => (),
    changedPixels := fun _ _ => 0, blendBg := fun _ _ => () }

def trivHandOps : HandOps Unit Unit :=
  { toGrayBlur := fun _ => (), medianOf := fun _ => (),
    handCandidates := fun _ _ => [], blendBg := fun _ _ => () }

/-- A filesystem holding a successful post capture and a saved pre-roll. -/
def c4FS : FS :=
  [("temp_post.h264", { clips := ["post"], size := 5000 }),
   ("buffer.mp4", { clips := ["pre"], size := 3000 })]

def c4State : RecorderState :=
  { isRecording := true, currentRecordingPath := some "out.mp4",
    currentTempFiles := ["temp_post.h264"], frameBuffer := [] }

/-- A filesystem holding one recording well above the 1024-byte floor. -/
def c6FS : FS := [("video.mp4", { clips := ["post"], size := 2048 })]

/-- A decoder that accepts every JPEG byte string. -/
def c8dec : List Nat → Option RawImg := fun _ => some { width := 640, height := 480, pix := 7 }

/-- A decoder that rejects every JPEG byte string. -/
def decNone : List Nat → Option RawImg := fun _ => none

/-- An ffprobe that times out on every file. -/
def probeTimedOut : Path → ProbeOutcome := fun _ => ProbeOutcome.timedOut

/-- An ffprobe that reports a 30-second duration on every file. -/
def probeOk30 : Path → ProbeOutcome := fun _ => ProbeOutcome.exitZero 30

/-! ## Theorems -/

/-! ### C7 — sensitivity table monotonicity -/

/-- C7: in the fixed sensitivity table (very_low, low, medium, high,
very_high), `threshold` is strictly decreasing and `cooldown` is
non-increasing as the sensitivity level increases from very_low to
very_high. -/
theorem C7_sensitivity_table_monotone :
    List.Chain' (fun a b => b.threshold < a.threshold ∧ b.cooldown ≤ a.cooldown)
      SENSITIVITY_LEVELS := by
  simp only [SENSITIVITY_LEVELS, List.chain'_cons, List.chain'_singleton, and_true]
  decide

/-! ### C3 — pre-event ring buffer bound -/

theorem dequePush_length_le (cap : Nat) (buf : List α) (x : α)
    (h : buf.length ≤ cap) : (dequePush cap buf x).length ≤ cap := by
  simp only [dequePush, List.length_drop, List.length_append, List.length_cons,
    List.length_nil]
  omega

theorem dequePushAll_eq_drop (cap : Nat) (buf xs : List α) (h : buf.length ≤ cap) :
    dequePushAll cap buf xs = (buf ++ xs).drop (buf.length + xs.length - cap) := by
  induction xs generalizing buf with
  | nil =>
    simp only [dequePushAll, List.foldl_nil, List.append_nil, List.length_nil,
      Nat.add_zero]
    rw [Nat.sub_eq_zero_of_le h, List.drop_zero]
  | cons x xs ih =>
    have hstep : dequePushAll cap buf (x :: xs) = dequePushAll cap (dequePush cap buf x) xs := rfl
    rw [hstep, ih _ (dequePush_length_le cap buf x h)]
    have hn : buf.length + 1 - cap ≤ (buf ++ [x]).length := by
      simp only [List.length_append, List.length_cons, List.length_nil]
      omega
    simp only [dequePush]
    rw [← List.drop_append_of_le_length hn, List.drop_drop]
    have hL : (buf ++ [x]) ++ xs = buf ++ x :: xs := by simp
    rw [hL]
    congr 1
    simp only [List.length_drop, List.length_append, List.length_cons, List.length_nil]
    omega

/-- C3: the pre-event ring buffer never holds more than `capacity` frames,
where capacity = pre_buffer_seconds × (capture_rate / frame_skip_factor) is
fixed at construction (5 × (30 / 3) = 50 for the defaults); after
capacity + k pushes it holds exactly the most recent `capacity` frames in
insertion order, oldest evicted first. -/
theorem C3_ring_buffer_bound :
    bufferCapacity 5 = 5 * (FRAMERATE / SKIP_FRAME) ∧ bufferCapacity 5 = 50 ∧
    (∀ (α : Type) (preBuffer : Nat) (xs : List α),
      (dequePushAll (bufferCapacity preBuffer) [] xs).length ≤ bufferCapacity preBuffer) ∧
    (∀ (α : Type) (preBuffer : Nat) (xs : List α) (k : Nat),
      xs.length = bufferCapacity preBuffer + k →
      dequePushAll (bufferCapacity preBuffer) [] xs = xs.drop k ∧
      (dequePushAll (bufferCapacity preBuffer) [] xs).length = bufferCapacity preBuffer) := by
  refine ⟨rfl, rfl, ?_, ?_⟩
  · intro α preBuffer xs
    rw [dequePushAll_eq_drop _ _ _ (by simp)]
    simp only [List.nil_append, List.length_nil, Nat.zero_add, List.length_drop]
    omega
  · intro α preBuffer xs k hlen
    have h := dequePushAll_eq_drop (bufferCapacity preBuffer) [] xs (by simp)
    simp only [List.nil_append, List.length_nil, Nat.zero_add] at h
    rw [hlen] at h
    have hk : bufferCapacity preBuffer + k - bufferCapacity preBuffer = k := by omega
    rw [hk] at h
    refine ⟨h, ?_⟩
    rw [h, List.length_drop, hlen]
    omega

/-- Witness for C3 at a concrete run: 60 pushes into the default-capacity
(50) buffer keep the 50 most recent frames. -/
theorem C3_ring_buffer_bound_witness :
    (List.range 60).length = bufferCapacity 5 + 10 ∧
    dequePushAll (bufferCapacity 5) [] (List.range 60) = (List.range 60).drop 10 :=
  ⟨by decide, (C3_ring_buffer_bound.2.2.2 Nat 5 (List.range 60) 10 (by decide)).1⟩

/-! ### C5 — session conflict refusal -/

/-- C5: if `start_recording` is invoked while a recording session is
already active, the second invocation returns no path and leaves the
recorder state and the filesystem (the first session's files) untouched;
the `None` return is the session-conflict report to the caller. -/
theorem C5_session_conflict (env : RecEnv) (s : RecorderState) (fs : FS)
    (h : s.isRecording = true) :
    startRecording env s fs = (none, s, fs) := by
  simp [startRecording, h]

/-- Witness for C5: a concrete busy recorder refuses a second session. -/
theorem C5_session_conflict_witness :
    c4State.isRecording = true ∧
    startRecording ⟨"out2.mp4", "temp2.h264", "buffer2.mp4", true⟩ c4State c4FS =
      (none, c4State, c4FS) :=
  ⟨rfl, C5_session_conflict _ _ _ rfl⟩

/-! ### C1 — detector cooldown -/

theorem simpleDetect_cooldown_gate (ops : ImgOps Frame Gray) (s : SimpleState Gray)
    (f : Frame) (now : ℚ) (h : now - s.lastDetectionTime < s.cooldown) :
    simpleDetect ops s f now = (false, { s with frameCount := s.frameCount + 1 }) := by
  simp [simpleDetect, h]

/-- Every `simpleDetect` call either reports no motion and leaves the
cooldown bookkeeping alone, or reports motion and stamps the call time. -/
theorem simpleDetect_spec (ops : ImgOps Frame Gray) (s : SimpleState Gray)
    (f : Frame) (now : ℚ) :
    ((simpleDetect ops s f now).1 = false ∧
      (simpleDetect ops s f now).2.lastDetectionTime = s.lastDetectionTime ∧
      (simpleDetect ops s f now).2.cooldown = s.cooldown) ∨
    ((simpleDetect ops s f now).1 = true ∧
      (simpleDetect ops s f now).2.lastDetectionTime = now ∧
      (simpleDetect ops s f now).2.cooldown = s.cooldown) := by
  unfold simpleDetect
  simp only
  repeat' (first
    | exact Or.inl ⟨rfl, rfl, rfl⟩
    | exact Or.inr ⟨rfl, rfl, rfl⟩
    | split)

theorem simpleTrace_cooldown (ops : ImgOps Frame Gray) (t cd : ℚ)
    (calls : List (Frame × ℚ)) (hc : ∀ c ∈ calls, c.2 - t < cd) :
    ∀ s : SimpleState Gray, s.lastDetectionTime = t → s.cooldown = cd →
      ∀ r ∈ simpleTrace ops s calls, r.1 = false := by
  induction calls with
  | nil => intro s _ _ r hr; simp [simpleTrace] at hr
  | cons c cs ih =>
    intro s hlast hcool r hr
    have hgate : c.2 - s.lastDetectionTime < s.cooldown := by
      rw [hlast, hcool]; exact hc c (List.mem_cons_self c cs)
    have hdet := simpleDetect_cooldown_gate ops s c.1 c.2 hgate
    simp only [simpleTrace, hdet] at hr
    rcases List.mem_cons.mp hr with h | h
    · rw [h]
    · exact ih (fun d hd => hc d (List.mem_cons_of_mem c hd))
        { s with frameCount := s.frameCount + 1 } hlast hcool r h

theorem handDetect_cooldown_gate (ops : HandOps Frame Gray) (s : HandState Gray)
    (f : Frame) (now : ℚ) (h : now - s.lastDetectionTime < s.cooldown) :
    handDetect ops s f now = (false, { s with frameCount := s.frameCount + 1 }) := by
  simp [handDetect, h]

theorem handDetect_spec (ops : HandOps Frame Gray) (s : HandState Gray)
    (f : Frame) (now : ℚ) :
    ((handDetect ops s f now).1 = false ∧
      (handDetect ops s f now).2.lastDetectionTime = s.lastDetectionTime ∧
      (handDetect ops s f now).2.cooldown = s.cooldown) ∨
    ((handDetect ops s f now).1 = true ∧
      (handDetect ops s f now).2.lastDetectionTime = now ∧
      (handDetect ops s f now).2.cooldown = s.cooldown) := by
  unfold handDetect
  simp only
  repeat' (first
    | exact Or.inl ⟨rfl, rfl, rfl⟩
    | exact Or.inr ⟨rfl, rfl, rfl⟩
    | split)

theorem handTrace_cooldown (ops : HandOps Frame Gray) (t cd : ℚ)
    (calls : List (Frame × ℚ)) (hc : ∀ c ∈ calls, c.2 - t < cd) :
    ∀ s : HandState Gray, s.lastDetectionTime = t → s.cooldown = cd →
      ∀ r ∈ handTrace ops s calls, r.1 = false := by
  induction calls with
  | nil => intro s _ _ r hr; simp [handTrace] at hr
  | cons c cs ih =>
    intro s hlast hcool r hr
    have hgate : c.2 - s.lastDetectionTime < s.cooldown := by
      rw [hlast, hcool]; exact hc c (List.mem_cons_self c cs)
    have hdet := handDetect_cooldown_gate ops s c.1 c.2 hgate
    simp only [handTrace, hdet] at hr
    rcases List.mem_cons.mp hr with h | h
    · rw [h]
    · exact ih (fun d hd => hc d (List.mem_cons_of_mem c hd))
        { s with frameCount := s.frameCount + 1 } hlast hcool r h

/-- C1: for every detector (SimpleMotionDetector and HandWaveDetector),
`detect()` never returns true twice within less than `cooldown` seconds:
a call inside the cooldown window returns false immediately — its outcome
and state are the same under every image-operation record, i.e. before any
image work, and only the frame counter moves — and after a call returns
true at time t, every subsequent call at a time within `cooldown` of t
returns false. -/
theorem C1_detector_cooldown :
    (∀ (Frame Gray : Type) (ops : ImgOps Frame Gray) (s : SimpleState Gray)
      (f : Frame) (now : ℚ), now - s.lastDetectionTime < s.cooldown →
      simpleDetect ops s f now = (false, { s with frameCount := s.frameCount + 1 })) ∧
    (∀ (Frame Gray : Type) (ops : ImgOps Frame Gray) (s : SimpleState Gray)
      (f : Frame) (t : ℚ), (simpleDetect ops s f t).1 = true →
      ∀ calls : List (Frame × ℚ), (∀ c ∈ calls, c.2 - t < s.cooldown) →
      ∀ r ∈ simpleTrace ops (simpleDetect ops s f t).2 calls, r.1 = false) ∧
    (∀ (Frame Gray : Type) (ops : HandOps Frame Gray) (s : HandState Gray)
      (f : Frame) (now : ℚ), now - s.lastDetectionTime < s.cooldown →
      handDetect ops s f now = (false, { s with frameCount := s.frameCount + 1 })) ∧
    (∀ (Frame Gray : Type) (ops : HandOps Frame Gray) (s : HandState Gray)
      (f : Frame) (t : ℚ), (handDetect ops s f t).1 = true →
      ∀ calls : List (Frame × ℚ), (∀ c ∈ calls, c.2 - t < s.cooldown) →
      ∀ r ∈ handTrace ops (handDetect ops s f t).2 calls, r.1 = false) := by
  refine ⟨fun F G ops s f now h => simpleDetect_cooldown_gate ops s f now h,
    ?_, fun F G ops s f now h => handDetect_cooldown_gate ops s f now h, ?_⟩
  · intro F G ops s f t htrue calls hc
    rcases simpleDetect_spec ops s f t with ⟨hfalse, _, _⟩ | ⟨_, hlast, hcool⟩
    · rw [htrue] at hfalse; exact absurd hfalse (by simp)
    · exact simpleTrace_cooldown ops t s.cooldown calls hc _ hlast hcool
  · intro F G ops s f t htrue calls hc
    rcases handDetect_spec ops s f t with ⟨hfalse, _, _⟩ | ⟨_, hlast, hcool⟩
    · rw [htrue] at hfalse; exact absurd hfalse (by simp)
    · exact handTrace_cooldown ops t s.cooldown calls hc _ hlast hcool

/-- Witness for C1: a concrete call inside the cooldown window is refused. -/
theorem C1_detector_cooldown_witness :
    ((1 : ℚ) - (simpleInit Unit 10000 12).lastDetectionTime < (simpleInit Unit 10000 12).cooldown) ∧
    simpleDetect trivImgOps (simpleInit Unit 10000 12) () 1 =
      (false, { simpleInit Unit 10000 12 with frameCount := 1 }) :=
  ⟨by norm_num [simpleInit],
   C1_detector_cooldown.1 Unit Unit trivImgOps (simpleInit Unit 10000 12) () 1
     (by norm_num [simpleInit])⟩

/-! ### C2 — warm-up readiness -/

theorem simpleDetect_not_ready (ops : ImgOps Frame Gray) (s : SimpleState Gray)
    (f : Frame) (now : ℚ) (h : s.backgroundReady = false) :
    (simpleDetect ops s f now).1 = false := by
  unfold simpleDetect
  simp only
  repeat' (first | rfl | split)
  all_goals simp_all

theorem simpleDetect_warmup_inv (ops : ImgOps Frame Gray) (s : SimpleState Gray)
    (f : Frame) (now : ℚ)
    (h : s.backgroundReady = true → s.backgroundFrames.length = 60) :
    (simpleDetect ops s f now).2.backgroundReady = true →
    (simpleDetect ops s f now).2.backgroundFrames.length = 60 := by
  unfold simpleDetect
  simp only
  repeat' split
  all_goals intro hr
  all_goals first
    | assumption
    | exact h hr
    | exact absurd (h hr) (by omega)

theorem simpleRun_warmup_inv (ops : ImgOps Frame Gray) (calls : List (Frame × ℚ)) :
    ∀ s : SimpleState Gray, (s.backgroundReady = true → s.backgroundFrames.length = 60) →
    (simpleRun ops s calls).backgroundReady = true →
    (simpleRun ops s calls).backgroundFrames.length = 60 := by
  induction calls with
  | nil => intro s h; simpa [simpleRun] using h
  | cons c cs ih =>
    intro s h
    have hstep : simpleRun ops s (c :: cs) = simpleRun ops ((simpleDetect ops s c.1 c.2).2) cs := rfl
    rw [hstep]
    exact ih _ (simpleDetect_warmup_inv ops s c.1 c.2 h)

theorem handDetect_not_ready (ops : HandOps Frame Gray) (s : HandState Gray)
    (f : Frame) (now : ℚ) (h : s.backgroundReady = false) :
    (handDetect ops s f now).1 = false := by
  unfold handDetect
  simp only
  repeat' (first | rfl | split)
  all_goals simp_all

theorem handDetect_warmup_inv (ops : HandOps Frame Gray) (s : HandState Gray)
    (f : Frame) (now : ℚ)
    (h : s.backgroundReady = true → s.backgroundFrames.length = 30) :
    (handDetect ops s f now).2.backgroundReady = true →
    (handDetect ops s f now).2.backgroundFrames.length = 30 := by
  unfold handDetect
  simp only
  repeat' split
  all_goals intro hr
  all_goals first
    | assumption
    | exact h hr
    | exact absurd (h hr) (by omega)

theorem handRun_warmup_inv (ops : HandOps Frame Gray) (calls : List (Frame × ℚ)) :
    ∀ s : HandState Gray, (s.backgroundReady = true → s.backgroundFrames.length = 30) →
    (handRun ops s calls).backgroundReady = true →
    (handRun ops s calls).backgroundFrames.length = 30 := by
  induction calls with
  | nil => intro s h; simpa [handRun] using h
  | cons c cs ih =>
    intro s h
    have hstep : handRun ops s (c :: cs) = handRun ops ((handDetect ops s c.1 c.2).2) cs := rfl
    rw [hstep]
    exact ih _ (handDetect_warmup_inv ops s c.1 c.2 h)

/-- C2: for every detector, the readiness flag is true only once the fixed
warm-up frame count has been absorbed (60 frames for the simple background
detector, 30 for the hand-wave detector), and every `detect()` call made
while `ready == false` returns false. -/
theorem C2_warmup_readiness :
    (∀ (Frame Gray : Type) (ops : ImgOps Frame Gray) (th : Nat) (cd : ℚ)
      (calls : List (Frame × ℚ)),
      (simpleRun ops (simpleInit Gray th cd) calls).backgroundReady = true →
      (simpleRun ops (simpleInit Gray th cd) calls).backgroundFrames.length = 60) ∧
    (∀ (Frame Gray : Type) (ops : ImgOps Frame Gray) (s : SimpleState Gray)
      (f : Frame) (now : ℚ), s.backgroundReady = false →
      (simpleDetect ops s f now).1 = false) ∧
    (∀ (Frame Gray : Type) (ops : HandOps Frame Gray) (cd : ℚ)
      (calls : List (Frame × ℚ)),
      (handRun ops (handInit Gray cd) calls).backgroundReady = true →
      (handRun ops (handInit Gray cd) calls).backgroundFrames.length = 30) ∧
    (∀ (Frame Gray : Type) (ops : HandOps Frame Gray) (s : HandState Gray)
      (f : Frame) (now : ℚ), s.backgroundReady = false →
      (handDetect ops s f now).1 = false) := by
  refine ⟨?_, fun F G ops s f now h => simpleDetect_not_ready ops s f now h,
    ?_, fun F G ops s f now h => handDetect_not_ready ops s f now h⟩
  · intro F G ops th cd calls
    exact simpleRun_warmup_inv ops calls (simpleInit G th cd) (by simp [simpleInit])
  · intro F G ops cd calls
    exact handRun_warmup_inv ops calls (handInit G cd) (by simp [handInit])

/-- Witness for C2: a freshly initialized detector is not ready and its
first call reports no motion. -/
theorem C2_warmup_readiness_witness :
    (simpleInit Unit 10000 12).backgroundReady = false ∧
    (simpleDetect trivImgOps (simpleInit Unit 10000 12) () 100).1 = false :=
  ⟨rfl, C2_warmup_readiness.2.1 Unit Unit trivImgOps (simpleInit Unit 10000 12) () 100 rfl⟩

/-! ### Filesystem model lemmas -/

theorem find?_filter_ne (fs : FS) (p q : Path) (h : q ≠ p) :
    List.find? (fun e => e.1 == q) (fs.filter (fun e => e.1 != p)) =
    List.find? (fun e => e.1 == q) fs := by
  induction fs with
  | nil => rfl
  | cons e rest ih =>
    by_cases he : e.1 = p
    · have h1 : (e.1 != p) = false := by simp [he]
      have h2 : (e.1 == q) = false := by
        simp only [beq_eq_false_iff_ne, ne_eq, he]
        exact fun hq => h hq.symm
      simp [List.filter_cons, h1, List.find?_cons, h2, ih]
    · have h1 : (e.1 != p) = true := by simp [he]
      by_cases hq : e.1 = q
      · simp [List.filter_cons, h1, List.find?_cons, hq, h]
      · have h2 : (e.1 == q) = false := by simp [hq]
        simp [List.filter_cons, h1, List.find?_cons, h2, ih]

theorem fsRead_fsDelete_ne (fs : FS) (p q : Path) (h : q ≠ p) :
    fsRead (fsDelete fs p) q = fsRead fs q := by
  simp only [fsRead, fsDelete, find?_filter_ne fs p q h]

theorem fsRead_fsDelete_self (fs : FS) (p : Path) :
    fsRead (fsDelete fs p) p = none := by
  have hnone : List.find? (fun e => e.1 == p) (fs.filter (fun e => e.1 != p)) = none := by
    rw [List.find?_eq_none]
    intro x hx
    have hne := (List.mem_filter.mp hx).2
    simp only [bne_iff_ne, ne_eq] at hne
    simp [hne]
  simp [fsRead, fsDelete, hnone]

theorem fsRead_fsWrite_self (fs : FS) (p : Path) (d : FileData) :
    fsRead (fsWrite fs p d) p = some d := by
  simp [fsRead, fsWrite, List.find?_cons]

theorem fsRead_fsWrite_ne (fs : FS) (p q : Path) (d : FileData) (h : q ≠ p) :
    fsRead (fsWrite fs p d) q = fsRead fs q := by
  have h2 : (p == q) = false := by
    simp only [beq_eq_false_iff_ne, ne_eq]
    exact fun hq => h hq.symm
  simp only [fsRead, fsWrite, List.find?_cons, h2]
  exact fsRead_fsDelete_ne fs p q h

/-! ### C4 — merge-failure fallback -/

/-- C4 counterexample: the post capture succeeded (`temp_post.h264` exists)
and a pre-roll is present, but the ffmpeg merge fails — `merge_worker`
ignores the failure, deletes the post clip anyway, and leaves nothing at
the output path, so the post-event footage is **not** preserved. -/
theorem C4_counterexample :
    fsExists c4FS "temp_post.h264" = true ∧
    fsRead (mergeWorker false (some "buffer.mp4") "temp_post.h264" "out.mp4"
      c4State c4FS).2 "out.mp4" = none ∧
    fsExists (mergeWorker false (some "buffer.mp4") "temp_post.h264" "out.mp4"
      c4State c4FS).2 "temp_post.h264" = false := by
  refine ⟨rfl, rfl, rfl⟩

/-- C4 amended: when **no pre-roll is available** (no buffer file, or the
buffer clip is absent), the merge worker falls back to moving the
post-event clip to the output path; when the merge **succeeds**, the merged
artifact (pre-roll clips followed by the post clips) is at the output path;
but when the merge **fails with a pre-roll present** there is no fallback:
the output path is left as it was and the post-event clip is deleted. -/
theorem C4_merge_fallback :
    (∀ (tempPost out : Path) (s : RecorderState) (fs : FS) (fd : FileData)
      (mergeOk : Bool), fsRead fs tempPost = some fd → out ≠ tempPost →
      fsRead (mergeWorker mergeOk none tempPost out s fs).2 out = some fd) ∧
    (∀ (b tempPost out : Path) (s : RecorderState) (fs : FS) (fd : FileData)
      (mergeOk : Bool), fsRead fs tempPost = some fd → fsRead fs b = none →
      out ≠ tempPost → out ≠ b → b ≠ tempPost →
      fsRead (mergeWorker mergeOk (some b) tempPost out s fs).2 out = some fd) ∧
    (∀ (b tempPost out : Path) (s : RecorderState) (fs : FS) (fdPre fdPost : FileData),
      fsRead fs tempPost = some fdPost → fsRead fs b = some fdPre →
      out ≠ tempPost → out ≠ b → b ≠ tempPost →
      fsRead (mergeWorker true (some b) tempPost out s fs).2 out =
        some { clips := fdPre.clips ++ fdPost.clips,
               size := fdPre.size + fdPost.size }) ∧
    (∀ (b tempPost out : Path) (s : RecorderState) (fs : FS) (fdPre fdPost : FileData),
      fsRead fs tempPost = some fdPost → fsRead fs b = some fdPre →
      out ≠ tempPost → out ≠ b → b ≠ tempPost →
      fsRead (mergeWorker false (some b) tempPost out s fs).2 out = fsRead fs out ∧
      fsExists (mergeWorker false (some b) tempPost out s fs).2 tempPost = false) := by
  refine ⟨?_, ?_, ?_, ?_⟩
  · intro tempPost out s fs fd mergeOk hpost hne
    have h0 : fsExists fs tempPost = true := by simp [fsExists, hpost]
    have h1 : fsRead (fsWrite (fsDelete fs tempPost) out fd) tempPost = none := by
      rw [fsRead_fsWrite_ne _ _ _ _ (fun hq => hne hq.symm)]
      exact fsRead_fsDelete_self fs tempPost
    simp only [mergeWorker, h0, if_true, List.length_cons, List.length_nil,
      List.nil_append, fsMove, hpost]
    simp only [Nat.lt_irrefl, if_false, fsExists, h1, Option.isSome_none,
      Bool.false_eq_true, if_neg]
    simp [fsRead_fsWrite_self]
  · intro b tempPost out s fs fd mergeOk hpost hbnone hne hnb hbt
    have h0 : fsExists fs tempPost = true := by simp [fsExists, hpost]
    have hb0 : fsExists fs b = false := by simp [fsExists, hbnone]
    have h1 : fsRead (fsWrite (fsDelete fs tempPost) out fd) tempPost = none := by
      rw [fsRead_fsWrite_ne _ _ _ _ (fun hq => hne hq.symm)]
      exact fsRead_fsDelete_self fs tempPost
    have h2 : fsRead (fsWrite (fsDelete fs tempPost) out fd) b = none := by
      rw [fsRead_fsWrite_ne _ _ _ _ (fun hq => hnb hq.symm)]
      rw [fsRead_fsDelete_ne _ _ _ hbt]
      exact hbnone
    simp only [mergeWorker, h0, if_true, hb0, Bool.false_eq_true, if_false,
      List.length_cons, List.length_nil, List.nil_append, fsMove, hpost]
    simp only [Nat.lt_irrefl, if_false, fsExists, h1, h2, Option.isSome_none,
      Bool.false_eq_true, if_neg]
    simp [fsRead_fsWrite_self]
  · intro b tempPost out s fs fdPre fdPost hpost hpre hne hnb hbt
    have hne2 : tempPost ≠ out := Ne.symm hne
    have hnb2 : b ≠ out := Ne.symm hnb
    have hbt2 : tempPost ≠ b := Ne.symm hbt
    simp [mergeWorker, mergeVideoFiles, fsExists, fsMove, hpost, hpre,
      fsRead_fsWrite_ne, fsRead_fsWrite_self, fsRead_fsDelete_ne,
      fsRead_fsDelete_self, hne, hnb, hbt, hne2, hnb2, hbt2]
  · intro b tempPost out s fs fdPre fdPost hpost hpre hne hnb hbt
    have hne2 : tempPost ≠ out := Ne.symm hne
    have hnb2 : b ≠ out := Ne.symm hnb
    have hbt2 : tempPost ≠ b := Ne.symm hbt
    simp [mergeWorker, mergeVideoFiles, fsExists, fsMove, hpost, hpre,
      fsRead_fsWrite_ne, fsRead_fsWrite_self, fsRead_fsDelete_ne,
      fsRead_fsDelete_self, hne, hnb, hbt, hne2, hnb2, hbt2]

/-- Witness for C4 (amended): a concrete session with no pre-roll falls back
to the post clip at the output path. -/
theorem C4_merge_fallback_witness :
    fsRead c4FS "temp_post.h264" = some { clips := ["post"], size := 5000 } ∧
    ("out.mp4" : Path) ≠ "temp_post.h264" ∧
    fsRead (mergeWorker true none "temp_post.h264" "out.mp4" c4State c4FS).2 "out.mp4" =
      some { clips := ["post"], size := 5000 } :=
  ⟨rfl, by decide,
   C4_merge_fallback.1 "temp_post.h264" "out.mp4" c4State c4FS _ true rfl (by decide)⟩

/-! ### C6 — recording verification and cleanup -/

/-- C6 counterexample: a 2048-byte recording whose duration probe fails by
timing out is rejected (`check_and_cleanup_recording` returns false) but is
**not** deleted — contradicting the claim that every file whose duration
probe fails is deleted. -/
theorem C6_counterexample :
    checkAndCleanupRecording probeTimedOut
      { currentRecordingPath := some "video.mp4", fs := c6FS } =
      (false, { currentRecordingPath := none, fs := c6FS }) ∧
    fsExists c6FS "video.mp4" = true := by
  refine ⟨rfl, rfl⟩

/-- C6 amended: `check_and_cleanup_recording` rejects and deletes every
file below the 1024-byte floor and every file whose duration probe exits
non-zero; a probe **timeout** is rejected (failure returned) but the file
is left in place; files at or above the floor whose probe reports a
duration are accepted and left in place. -/
theorem C6_verify_cleanup (probe : Path → ProbeOutcome) (p : Path) (fs : FS)
    (fd : FileData) (hread : fsRead fs p = some fd) :
    (fd.size < 1024 →
      checkAndCleanupRecording probe { currentRecordingPath := some p, fs := fs } =
        (false, { currentRecordingPath := none, fs := fsDelete fs p })) ∧
    (1024 ≤ fd.size → probe p = ProbeOutcome.exitNonzero →
      checkAndCleanupRecording probe { currentRecordingPath := some p, fs := fs } =
        (false, { currentRecordingPath := none, fs := fsDelete fs p })) ∧
    (1024 ≤ fd.size → probe p = ProbeOutcome.timedOut →
      checkAndCleanupRecording probe { currentRecordingPath := some p, fs := fs } =
        (false, { currentRecordingPath := none, fs := fs })) ∧
    (1024 ≤ fd.size → ∀ d : ℚ, probe p = ProbeOutcome.exitZero d →
      checkAndCleanupRecording probe { currentRecordingPath := some p, fs := fs } =
        (true, { currentRecordingPath := none, fs := fs })) := by
  refine ⟨?_, ?_, ?_, ?_⟩
  · intro hsize
    simp [checkAndCleanupRecording, hread, hsize]
  · intro hsize hprobe
    simp [checkAndCleanupRecording, hread, hprobe, Nat.not_lt.mpr hsize]
  · intro hsize hprobe
    simp [checkAndCleanupRecording, hread, hprobe, Nat.not_lt.mpr hsize]
  · intro hsize d hprobe
    simp [checkAndCleanupRecording, hread, hprobe, Nat.not_lt.mpr hsize]

/-- Witness for C6 (amended): a healthy 2048-byte recording with a
successful probe is accepted and kept. -/
theorem C6_verify_cleanup_witness :
    (1024 ≤ (2048 : Nat)) ∧
    checkAndCleanupRecording probeOk30
      { currentRecordingPath := some "video.mp4", fs := c6FS } =
      (true, { currentRecordingPath := none, fs := c6FS }) :=
  ⟨by decide,
   (C6_verify_cleanup probeOk30 "video.mp4" c6FS { clips := ["post"], size := 2048 }
     rfl).2.2.2 (by decide) 30 rfl⟩

/-! ### C8 — pre-buffer snapshot -/

theorem writeBufferFrames_eq_flatMap (decode : List Nat → Option RawImg)
    (width height : Nat) (buffer : List (List Nat)) :
    writeBufferFrames decode width height buffer =
      buffer.flatMap (decodeBlock decode width height) := by
  have h : ∀ (bs : List (List Nat)) (acc : List RawImg),
      bs.foldl (fun acc j =>
        match decode j with
        | some f => acc ++ List.replicate 3 (resizeImg width height f)
        | none => acc) acc = acc ++ bs.flatMap (decodeBlock decode width height) := by
    intro bs
    induction bs with
    | nil => intro acc; simp
    | cons j js ih =>
      intro acc
      simp only [List.foldl_cons, List.flatMap_cons, decodeBlock]
      cases hj : decode j with
      | none =>
        simp only [hj]
        rw [ih]
        simp
      | some f =>
        simp only [hj]
        rw [ih]
        simp [List.append_assoc]
  simpa [writeBufferFrames] using h buffer []

theorem flatMap_decodeBlock_length (decode : List Nat → Option RawImg)
    (width height : Nat) (buffer : List (List Nat))
    (hdec : ∀ j ∈ buffer, (decode j).isSome = true) :
    (buffer.flatMap (decodeBlock decode width height)).length = 3 * buffer.length := by
  induction buffer with
  | nil => simp
  | cons j js ih =>
    rcases Option.isSome_iff_exists.mp (hdec j (by simp)) with ⟨f, hf⟩
    have ihs := ih (fun x hx => hdec x (by simp [hx]))
    simp only [List.flatMap_cons, List.length_append, List.length_cons, ihs,
      decodeBlock, hf, List.length_replicate]
    omega

theorem flatMap_decodeBlock_dims (decode : List Nat → Option RawImg)
    (width height : Nat) (buffer : List (List Nat)) :
    ∀ fr ∈ buffer.flatMap (decodeBlock decode width height),
      fr.width = width ∧ fr.height = height := by
  intro fr hfr
  rcases List.mem_flatMap.mp hfr with ⟨j, hj, hin⟩
  unfold decodeBlock at hin
  cases hd : decode j with
  | none => rw [hd] at hin; simp at hin
  | some f =>
    rw [hd] at hin
    rw [List.eq_of_mem_replicate hin]
    exact ⟨rfl, rfl⟩

theorem flatMap_decodeBlock_slice (decode : List Nat → Option RawImg)
    (width height : Nat) :
    ∀ (buffer : List (List Nat)), (∀ j ∈ buffer, (decode j).isSome = true) →
    ∀ k, k < buffer.length → ∃ f, decode (buffer.getD k []) = some f ∧
      ((buffer.flatMap (decodeBlock decode width height)).drop (3 * k)).take 3 =
        List.replicate 3 (resizeImg width height f) := by
  intro buffer
  induction buffer with
  | nil => intro _ k hk; simp at hk
  | cons j js ih =>
    intro hdec k hk
    rcases Option.isSome_iff_exists.mp (hdec j (by simp)) with ⟨f, hf⟩
    cases k with
    | zero =>
      refine ⟨f, by simpa using hf, ?_⟩
      simp only [List.flatMap_cons, decodeBlock, hf, Nat.mul_zero, List.drop_zero]
      exact List.take_left' (by simp)
    | succ k0 =>
      have hk0 : k0 < js.length := by simpa using hk
      rcases ih (fun x hx => hdec x (by simp [hx])) k0 hk0 with ⟨g, hg, hslice⟩
      refine ⟨g, by simpa using hg, ?_⟩
      simp only [List.flatMap_cons, decodeBlock, hf]
      have h3 : 3 * (k0 + 1) =
          (List.replicate 3 (resizeImg width height f)).length + 3 * k0 := by
        simp [Nat.mul_succ, Nat.mul_comm]
        omega
      rw [h3, List.drop_append]
      exact hslice

/-- C8: `save_buffer_to_file` returns None exactly when the ring buffer is
empty (given that the external decoder accepts every stored frame and the
writer succeeds); for a non-empty buffer it writes one clip at the 30 fps
post-event target rate in which each stored frame appears as exactly 3
consecutive copies, resized to the recording's target resolution, and
returns its path. -/
theorem C8_pre_buffer_snapshot (decode : List Nat → Option RawImg)
    (width height : Nat) (buffer : List (List Nat)) (path : Path)
    (hdec : ∀ j ∈ buffer, (decode j).isSome = true) :
    (saveBufferToFile decode true width height buffer path = none ↔ buffer = []) ∧
    (∀ (p : Path) (clip : SavedClip),
      saveBufferToFile decode true width height buffer path = some (p, clip) →
      p = path ∧ clip.fps = 30 ∧
      clip.frames.length = 3 * buffer.length ∧
      (∀ fr ∈ clip.frames, fr.width = width ∧ fr.height = height) ∧
      (∀ k, k < buffer.length → ∃ f, decode (buffer.getD k []) = some f ∧
        (clip.frames.drop (3 * k)).take 3 =
          List.replicate 3 (resizeImg width height f))) := by
  constructor
  · constructor
    · intro h
      by_contra hne
      have hlen : ¬ buffer.length = 0 := by
        simpa [List.length_eq_zero] using hne
      simp [saveBufferToFile, hlen] at h
    · intro h
      simp [saveBufferToFile, h]
  · intro p clip hsome
    by_cases hlen : buffer.length = 0
    · simp [saveBufferToFile, hlen] at hsome
    · simp only [saveBufferToFile, hlen, if_false, if_true, Option.some.injEq,
        Prod.mk.injEq] at hsome
      obtain ⟨hp, hclip⟩ := hsome
      subst hp
      subst hclip
      refine ⟨rfl, rfl, ?_, ?_, ?_⟩
      · rw [writeBufferFrames_eq_flatMap]
        exact flatMap_decodeBlock_length decode width height buffer hdec
      · rw [writeBufferFrames_eq_flatMap]
        exact flatMap_decodeBlock_dims decode width height buffer
      · intro k hk
        rw [writeBufferFrames_eq_flatMap]
        exact flatMap_decodeBlock_slice decode width height buffer hdec k hk

/-- Witness for C8 at a two-frame buffer with an accepting decoder. -/
theorem C8_pre_buffer_snapshot_witness :
    (∀ j ∈ ([[1], [2]] : List (List Nat)), (c8dec j).isSome = true) ∧
    (saveBufferToFile c8dec true 1280 720 [[1], [2]] "buffer.mp4" = none ↔
      ([[1], [2]] : List (List Nat)) = []) :=
  ⟨by decide,
   (C8_pre_buffer_snapshot c8dec 1280 720 [[1], [2]] "buffer.mp4" (by decide)).1⟩

/-! ### C9 — stream byte-buffer ceiling -/

theorem findPatAux_start_replicate_zero :
    ∀ (n i : Nat), findPatAux JPEG_START (List.replicate n 0) i = none := by
  intro n
  induction n with
  | zero => intro i; simp [findPatAux, JPEG_START]
  | succ m ih =>
    intro i
    have hcond : ¬ ((0 :: List.replicate m 0).take JPEG_START.length = JPEG_START) := by
      simp [JPEG_START]
    rw [List.replicate_succ]
    simp only [findPatAux, if_neg hcond]
    exact ih (i + 1)

theorem extractFrameFromMjpeg_replicate_zero (decode : List Nat → Option RawImg)
    (n : Nat) :
    extractFrameFromMjpeg decode (List.replicate n 0) = (none, List.replicate n 0) := by
  simp [extractFrameFromMjpeg, findPatAux_start_replicate_zero n 0]

theorem getFrameStep_zeros (decode : List Nat → Option RawImg) (m c : Nat)
    (hc : c ≠ 0) :
    (getFrameStep decode (List.replicate m 0) (List.replicate c 0)).2 =
      List.replicate (m + c) 0 := by
  have hlen : ¬ ((List.replicate c (0 : Nat)).length = 0) := by simp [hc]
  simp only [getFrameStep, if_neg hlen]
  rw [← List.replicate_add]
  exact congrArg Prod.snd (extractFrameFromMjpeg_replicate_zero decode (m + c))

theorem runStream_zero_chunks (decode : List Nat → Option RawImg) (c : Nat)
    (hc : c ≠ 0) :
    ∀ (k m : Nat),
      runStream decode (List.replicate m 0) (List.replicate k (List.replicate c 0)) =
        List.replicate (m + c * k) 0 := by
  intro k
  induction k with
  | zero => intro m; simp [runStream]
  | succ j ih =>
    intro m
    rw [List.replicate_succ]
    show runStream decode
      ((getFrameStep decode (List.replicate m 0) (List.replicate c 0)).2)
      (List.replicate j (List.replicate c 0)) = List.replicate (m + c * (j + 1)) 0
    rw [getFrameStep_zeros decode m c hc, ih (m + c)]
    congr 1
    ring

/-- C9 counterexample: `CameraStreamManager.get_frame` enforces no buffer
ceiling at all.  Feeding 1000 reads of 4096 marker-free bytes, every byte
is retained: the buffer is the full 4,096,000-byte input — beyond even the
largest configured stream buffer limit in the repository (1 MiB in
cctv_main.py) — and nothing is discarded. -/
theorem C9_counterexample :
    runStream decNone [] (List.replicate 1000 (List.replicate 4096 0)) =
      List.replicate 4096000 0 ∧
    (runStream decNone [] (List.replicate 1000 (List.replicate 4096 0))).length =
      4096000 ∧
    1048576 < 4096000 := by
  have h := runStream_zero_chunks decNone 4096 (by norm_num) 1000 0
  rw [List.replicate_zero] at h
  norm_num at h
  exact ⟨h, by rw [h, List.length_replicate], by norm_num⟩

theorem streamTrim_suffix (bufferLimit bufferKeep : Nat) (b : List Nat) :
    streamTrim bufferLimit bufferKeep b <:+ b := by
  unfold streamTrim
  split_ifs
  · exact List.drop_suffix _ _
  · exact List.suffix_refl _

theorem streamTrim_length_le (bufferLimit bufferKeep : Nat)
    (hkeep : bufferKeep ≤ bufferLimit) (b : List Nat) :
    (streamTrim bufferLimit bufferKeep b).length ≤ bufferLimit := by
  unfold streamTrim
  split_ifs with h
  · simp only [List.length_drop]
    omega
  · omega

theorem frameScan_suffix (ct ck fmin fmax : Nat) :
    ∀ (fuel : Nat) (buffer : List Nat) (acc : List (List Nat)),
      (frameScan ct ck fmin fmax fuel buffer acc).2 <:+ buffer := by
  intro fuel
  induction fuel with
  | zero => intro buffer acc; simp [frameScan]
  | succ f ih =>
    intro buffer acc
    simp only [frameScan]
    repeat' split
    all_goals first
      | exact List.drop_suffix _ _
      | exact List.suffix_refl _
      | exact (ih _ _).trans (List.drop_suffix _ _)

/-- C9 amended: `CameraStreamManager.get_frame` retains all unparsed bytes
without any ceiling (see the counterexample); the buffer ceiling of the
claim is enforced in cctv_main's `generate_mjpeg_stream` loop: after each
read the retained unparsed buffer is a tail (suffix) of the accumulated
bytes and its size never exceeds `buffer_limit` (1 MiB with a 512 KiB kept
tail for the 720p profile), the oldest excess bytes having been discarded. -/
theorem C9_stream_buffer_ceiling (bufferLimit bufferKeep ct ck fmin fmax fuel : Nat)
    (hkeep : bufferKeep ≤ bufferLimit) (buffer chunk : List Nat) :
    (streamIter bufferLimit bufferKeep ct ck fmin fmax fuel buffer chunk).2.length ≤
      bufferLimit ∧
    (streamIter bufferLimit bufferKeep ct ck fmin fmax fuel buffer chunk).2 <:+
      buffer ++ chunk := by
  have hsuf := frameScan_suffix ct ck fmin fmax fuel
    (streamTrim bufferLimit bufferKeep (buffer ++ chunk)) []
  constructor
  · exact le_trans hsuf.length_le (streamTrim_length_le _ _ hkeep _)
  · exact hsuf.trans (streamTrim_suffix _ _ _)

/-- Witness for C9 (amended) at the 720p profile constants. -/
theorem C9_stream_buffer_ceiling_witness :
    (524288 ≤ (1048576 : Nat)) ∧
    ((streamIter 1048576 524288 100000 20000 5000 500000 4 [0] [0, 0, 0]).2.length ≤
        1048576 ∧
      (streamIter 1048576 524288 100000 20000 5000 500000 4 [0] [0, 0, 0]).2 <:+
        [0] ++ [0, 0, 0]) :=
  ⟨by norm_num,
   C9_stream_buffer_ceiling 1048576 524288 100000 20000 5000 500000 4 (by norm_num)
     [0] [0, 0, 0]⟩

/-! ### C10 — recording flag vs. ring buffer -/

/-- C10: once `start_recording` has set `is_recording`, the flag stays true
under monitoring-loop frame arrivals and further start attempts until the
merge worker's cleanup clears it — the only event in this subsystem that
does — and while it is true the monitoring loop pushes nothing into the
pre-event ring buffer, so no frame enters the ring buffer for the entire
recording-plus-merge period. -/
theorem C10_recording_blocks_buffer (cap : Nat) :
    (∀ s : LoopState, (loopStep cap s LoopEvent.recordingStarted).isRecording = true) ∧
    (∀ (s : LoopState) (f : List Nat), s.isRecording = true →
      loopStep cap s (LoopEvent.frameArrived f) = s) ∧
    (∀ (evs : List LoopEvent) (s : LoopState), s.isRecording = true →
      LoopEvent.mergeWorkerDone ∉ evs →
      (loopRun cap s evs).isRecording = true ∧
      (loopRun cap s evs).ringBuffer = s.ringBuffer) ∧
    (∀ s : LoopState, (loopStep cap s LoopEvent.mergeWorkerDone).isRecording = false) := by
  refine ⟨?_, ?_, ?_, ?_⟩
  · intro s
    by_cases h : s.isRecording <;> simp [loopStep, h]
  · intro s f h
    simp [loopStep, h]
  · intro evs
    induction evs with
    | nil => intro s h _; exact ⟨h, rfl⟩
    | cons e es ih =>
      intro s h hno
      have hne : e ≠ LoopEvent.mergeWorkerDone := fun he => hno (by simp [he])
      have hrest : LoopEvent.mergeWorkerDone ∉ es := fun hm => hno (by simp [hm])
      cases e with
      | frameArrived f =>
        have hstep : loopStep cap s (LoopEvent.frameArrived f) = s := by
          simp [loopStep, h]
        show (loopRun cap (loopStep cap s (LoopEvent.frameArrived f)) es).isRecording = true ∧
          (loopRun cap (loopStep cap s (LoopEvent.frameArrived f)) es).ringBuffer = s.ringBuffer
        rw [hstep]
        exact ih s h hrest
      | recordingStarted =>
        have hstep : loopStep cap s LoopEvent.recordingStarted = s := by
          simp [loopStep, h]
        show (loopRun cap (loopStep cap s LoopEvent.recordingStarted) es).isRecording = true ∧
          (loopRun cap (loopStep cap s LoopEvent.recordingStarted) es).ringBuffer = s.ringBuffer
        rw [hstep]
        exact ih s h hrest
      | mergeWorkerDone => exact absurd rfl hne
  · intro s
    simp [loopStep]

/-- Witness for C10: a concrete recording-period trace leaves the ring
buffer untouched. -/
theorem C10_recording_blocks_buffer_witness :
    ({ isRecording := true, ringBuffer := [[9]] } : LoopState).isRecording = true ∧
    LoopEvent.mergeWorkerDone ∉
      [LoopEvent.frameArrived [1], LoopEvent.recordingStarted] ∧
    ((loopRun 50 { isRecording := true, ringBuffer := [[9]] }
        [LoopEvent.frameArrived [1], LoopEvent.recordingStarted]).isRecording = true ∧
      (loopRun 50 { isRecording := true, ringBuffer := [[9]] }
        [LoopEvent.frameArrived [1], LoopEvent.recordingStarted]).ringBuffer = [[9]]) :=
  ⟨rfl, by decide,
   C10_recording_blocks_buffer 50 |>.2.2.1
     [LoopEvent.frameArrived [1], LoopEvent.recordingStarted]
     { isRecording := true, ringBuffer := [[9]] } rfl (by decide)⟩

end LiveCam
